import Mathlib

/-!
Verification of the `ccc` CKB client SDK core against its design document.

The development shallowly embeds the two source modules under scrutiny:

* `packages/core/src/hasher/index.ts` — the `Hasher` class and the
  one-shot `ckbHash` free function;
* `packages/core/src/client/jsonRpc/index.ts` — the `ClientJsonRpc`
  JSON-RPC transport (`buildPayload`, `buildSender`, `send`,
  `findCellsPagedNoCache`) and the `SignerBtc` Bitcoin-style signer
  (`prepareTransaction`, `signOnlyTransaction`).

Bytes are `Nat` (0..255 where relevant), byte strings are `List Nat`,
and JavaScript dynamic values for the RPC parameter lists are the
inductive `JsVal`.  Helpers of the repository that live outside the
two modules (the transaction domain model, `numToHex`, the witness
plumbing) are modelled from the design document where noted.
-/

/-- Little-endian fixed-width encoding of a natural number, the model of
the repository's `numToBytes(n, w)` (`Modelled from the spec:` §4.1,
"fixed-size primitives encode little-endian, fixed width"; the source
of `num/index.ts` is not part of the embedded modules). -/
def numToBytes : Nat → Nat → List Nat
  | _, 0 => []
  | n, w + 1 => n % 256 :: numToBytes (n / 256) w

/-- Modelled from the spec: the repository's `numToHex` (module
`num/index.ts`, not among the embedded sources) renders a number as a
lowercase hexadecimal string with a `0x` tag, as used for RPC
parameters. -/
def numToHex (n : Nat) : String := "0x" ++ String.mk (Nat.toDigits 16 n)

theorem numToBytes_length (n w : Nat) : (numToBytes n w).length = w := by
  induction w generalizing n with
  | zero => rfl
  | succ w ih => simp [numToBytes, ih]

/-! ## Hasher (`packages/core/src/hasher/index.ts`)

The class wraps a streaming Blake2b instance (output length 32,
personalised with `CKB_BLAKE2B_PERSONAL`).  The third-party primitive
is represented by the bytes fed to it together with an arbitrary
finalisation function `final` standing for the personalised Blake2b
digest; `update` feeds bytes, `digest` finalises. -/

structure Hasher where
  /-- Finalisation of the underlying personalised Blake2b instance. -/
  final : List Nat → String
  /-- Bytes fed to the underlying instance so far. -/
  acc : List Nat

/-- `new Hasher()`: a fresh instance that has consumed no input. -/
def Hasher.new (final : List Nat → String) : Hasher := ⟨final, []⟩

/-- `Hasher.update(data)`: feeds `data` to the underlying instance and
returns the hasher for chaining. -/
def Hasher.update (h : Hasher) (data : List Nat) : Hasher :=
  ⟨h.final, h.acc ++ data⟩

/-- `Hasher.digest()`: finalises and renders the digest. -/
def Hasher.digest (h : Hasher) : String := h.final h.acc

/-- `ckbHash(...data)`: one-shot hash of a sequence of byte-like
inputs — a fresh `Hasher` updated with each input in order, then
finalised. -/
def ckbHash (final : List Nat → String) (data : List (List Nat)) : String :=
  (data.foldl Hasher.update (Hasher.new final)).digest

/-! ## JSON-RPC transport (`ClientJsonRpc`) -/

/-- The wire payload built by `ClientJsonRpc.buildPayload`:
`{id, method, params, jsonrpc: "2.0"}`, with `V` the type of dynamic
parameter values. -/
structure JsonRpcPayload (V : Type) where
  id : Nat
  method : String
  params : List V
  jsonrpc : String
deriving DecidableEq

/-- The `transform` helper: applies the transformer when one is
provided, otherwise returns the value unchanged. -/
def transform {V : Type} (v : V) : Option (V → V) → V
  | some f => f v
  | none => v

/-- `ClientJsonRpc.buildPayload(method, req)`.  The source draws the
correlation id as `Math.round(Math.random() * 10000)`; the entropy is
an explicit argument `rnd` here and the id is its reduction into the
same `0..10000` range. -/
def ClientJsonRpc.buildPayload {V : Type} (rnd : Nat) (method : String)
    (req : List V) : JsonRpcPayload V :=
  { id := rnd % 10001, method := method, params := req, jsonrpc := "2.0" }

/-- `buildSender`'s argument padding: the caller's argument list is
extended with `Math.max(inTransformers.length - req.length, 0)` many
`undefined` slots (truncated subtraction is exactly that maximum). -/
def padWithUndefined {V : Type} (undef : V) (n : Nat) (req : List V) : List V :=
  req ++ List.replicate (n - req.length) undef

/-- `buildSender`'s `.map((v, i) => transform(v, inTransformers[i]))`:
each padded argument is passed through the transformer at its index;
past the transformer list the value is kept unchanged. -/
def applyInTransformers {V : Type} :
    List (Option (V → V)) → List V → List V
  | _, [] => []
  | [], v :: vs => v :: applyInTransformers [] vs
  | t :: ts, v :: vs => transform v t :: applyInTransformers ts vs

/-- The payload produced by a sender built with
`ClientJsonRpc.buildSender(rpcMethod, inTransformers, ...)` when
invoked on the argument list `req`. -/
def ClientJsonRpc.buildSenderPayload {V : Type} (undef : V) (rnd : Nat)
    (rpcMethod : String) (inTransformers : List (Option (V → V)))
    (req : List V) : JsonRpcPayload V :=
  ClientJsonRpc.buildPayload rnd rpcMethod
    (applyInTransformers inTransformers
      (padWithUndefined undef inTransformers.length req))

/-- A node-reported JSON-RPC error object, carrying the node's code and
message. -/
structure JsonRpcError where
  code : Int
  message : String
deriving DecidableEq

/-- The response object `send` reads back: `{id, error, result}`; an
absent or `null` error field is `none`. -/
structure JsonRpcResponse (V : Type) where
  id : Nat
  error : Option JsonRpcError
  result : V
deriving DecidableEq

/-- Outcome of `ClientJsonRpc.send`: the result on success, or one of
the typed failures it throws. -/
inductive SendResult (V : Type) where
  | ok (result : V)
  | idMismatch (got expected : Nat)
  | rpcError (e : JsonRpcError)
deriving DecidableEq

/-- `ClientJsonRpc.send(payload)` applied to the decoded response: the
id check (`Id mismatched, got .., expected ..`) comes first, then the
error field is rethrown verbatim, and only then is the result
returned. -/
def ClientJsonRpc.send {V : Type} (payload : JsonRpcPayload V)
    (res : JsonRpcResponse V) : SendResult V :=
  if res.id ≠ payload.id then .idMismatch res.id payload.id
  else
    match res.error with
    | some e => .rpcError e
    | none => .ok res.result

/-- Dynamic JavaScript values appearing in RPC parameter lists:
`undefined`, strings, numbers, and search-key objects (kept opaque). -/
inductive JsVal where
  | undef
  | vstr (s : String)
  | vnum (n : Nat)
  | vkey (k : Nat)
deriving DecidableEq

/-- The second input transformer of `findCellsPagedNoCache`:
`(order) => order ?? "asc"`. -/
def orderTransformer : JsVal → JsVal
  | .undef => .vstr "asc"
  | v => v

/-- The third input transformer of `findCellsPagedNoCache`:
`(limit) => numToHex(limit ?? 10)`.  `NumLike` coercion of
non-numeric limit shapes is elided (the claim concerns numeric or
omitted limits). -/
def limitTransformer : JsVal → JsVal
  | .undef => .vstr (numToHex 10)
  | .vnum n => .vstr (numToHex n)
  | v => v

/-- The payload sent by `findCellsPagedNoCache`, a sender built with
`buildSender("get_cells", [indexerSearchKeyFrom, orderTransformer,
limitTransformer], ...)`; `keyFrom` stands for
`JsonRpcTransformers.indexerSearchKeyFrom`. -/
def ClientJsonRpc.findCellsPagedNoCachePayload (keyFrom : JsVal → JsVal)
    (rnd : Nat) (req : List JsVal) : JsonRpcPayload JsVal :=
  ClientJsonRpc.buildSenderPayload .undef rnd "get_cells"
    [some keyFrom, some orderTransformer, some limitTransformer] req

/-! ## Transaction domain model

Modelled from the spec §3: the `Transaction` structure and its
constituent value types.  Witnesses are held structurally as
`WitnessArgs` values; the offset-table byte codec (`WitnessArgs.
fromBytes` / serialisation, §4.1) is elided as the identity on this
structural form, which is faithful for the signer claims because the
signer decodes a witness, edits one field and re-serialises it. -/

structure OutPoint where
  txHash : List Nat
  index : Nat
deriving DecidableEq

inductive HashType where
  | dataHash
  | typeHash
  | data1Hash
  | data2Hash
deriving DecidableEq

structure Script where
  codeHash : List Nat
  hashType : HashType
  args : List Nat
deriving DecidableEq

structure CellInput where
  previousOutput : OutPoint
  since : Nat
deriving DecidableEq

structure CellOutput where
  capacity : Nat
  lock : Script
  typeScript : Option Script
deriving DecidableEq

inductive DepType where
  | code
  | depGroup
deriving DecidableEq

structure CellDep where
  outPoint : OutPoint
  depType : DepType
deriving DecidableEq

structure WitnessArgs where
  lock : Option (List Nat)
  inputType : Option (List Nat)
  outputType : Option (List Nat)
deriving DecidableEq

structure Transaction where
  version : Nat
  cellDeps : List CellDep
  headerDeps : List (List Nat)
  inputs : List CellInput
  outputs : List CellOutput
  outputsData : List (List Nat)
  witnesses : List WitnessArgs
deriving DecidableEq

/-- The empty `WitnessArgs`, all three fields absent. -/
def WitnessArgs.empty : WitnessArgs := ⟨none, none, none⟩

/-- Result of `Transaction.getSignHashInfo`: the sighash-all digest
and the witness position it binds. -/
structure SignHashInfo where
  message : String
  position : Nat
deriving DecidableEq

/-- Modelled from the spec §4.5: `Transaction.getSignHashInfo(script,
client)` resolves, via the client, the lock of each input
(`resolveLock` stands for that lookup) and, when some input's lock
equals `script`, returns the sighash-all digest (`digestOf` stands
for the §4.5 digest computation) together with the position of the
first witness of that lock group; otherwise it resolves to nothing. -/
def Transaction.getSignHashInfo (resolveLock : OutPoint → Option Script)
    (digestOf : Transaction → Script → String) (tx : Transaction)
    (script : Script) : Option SignHashInfo :=
  match tx.inputs.findIdx?
      (fun i => decide (resolveLock i.previousOutput = some script)) with
  | none => none
  | some pos => some ⟨digestOf tx script, pos⟩

/-- Modelled from the spec: `Transaction.setWitnessArgsAt(position,
witness)` stores the serialised witness at the given position (the
claims only exercise positions inside the witness list). -/
def Transaction.setWitnessArgsAt (tx : Transaction) (position : Nat)
    (witness : WitnessArgs) : Transaction :=
  { tx with witnesses := tx.witnesses.set position witness }

/-- Modelled from the spec: `Transaction.addCellDepsOfKnownScripts`
appends the known script's default cell dep unless already present
(cell deps are deduplicated by value, §3). -/
def Transaction.addCellDepsOfKnownScripts (tx : Transaction)
    (dep : CellDep) : Transaction :=
  if dep ∈ tx.cellDeps then tx
  else { tx with cellDeps := tx.cellDeps ++ [dep] }

/-- Modelled from the spec §4.4/§4.5: `Transaction.
prepareSighashAllWitness(script, size, client)` reserves, at the first
input position whose lock is `script`, a placeholder witness whose
lock field is `size` zero bytes (a placeholder "sized to the payer's
expected signature envelope"). -/
def Transaction.prepareSighashAllWitness (tx : Transaction)
    (resolveLock : OutPoint → Option Script) (script : Script)
    (size : Nat) : Transaction :=
  match tx.inputs.findIdx?
      (fun i => decide (resolveLock i.previousOutput = some script)) with
  | none => tx
  | some pos =>
      let w := tx.witnesses.getD pos WitnessArgs.empty
      tx.setWitnessArgsAt pos { w with lock := some (List.replicate size 0) }

/-! ## SignerBtc (`packages/core/src/client/jsonRpc/index.ts`) -/

/-- The placeholder witness-lock size `SignerBtc.prepareTransaction`
passes to `prepareSighashAllWitness` (the literal `85` in the
source). -/
def btcPlaceholderWitnessLockSize : Nat := 85

/-- The fixed ledger-specific text prepended to the sighash digest
before it is handed to the external Bitcoin message signer (the
template `CKB (Bitcoin Layer) transaction: ...` in the source). -/
def btcSignMessageLabel : String := "CKB (Bitcoin Layer) transaction: "

/-- The recovery-id adjustment `signature[0] = 31 + ((signature[0] -
27) % 4)`: JavaScript `%` is the sign-of-dividend remainder
(`Int.tmod`) and the store into a `Uint8Array` wraps modulo 256. -/
def adjustRecoveryId : List Nat → List Nat
  | [] => []
  | b :: rest => ((31 + ((b : Int) - 27).tmod 4).emod 256).toNat :: rest

/-- The witness-lock envelope `signOnlyTransaction` writes: five
4-byte little-endian header fields followed by the adjusted
signature bytes. -/
def btcSignatureEnvelope (signature : List Nat) : List Nat :=
  numToBytes (5 * 4 + signature.length) 4 ++
    numToBytes (4 * 4) 4 ++
    numToBytes (5 * 4 + signature.length) 4 ++
    numToBytes (5 * 4 + signature.length) 4 ++
    numToBytes signature.length 4 ++
    signature

/-- `SignerBtc.prepareTransaction(txLike)`: copies the transaction,
ensures the OmniLock cell dep (`omniLockDep` stands for the known
script's default dep resolved via the client) and reserves an
85-byte placeholder witness lock for the signer's recommended lock
script. -/
def SignerBtc.prepareTransaction (resolveLock : OutPoint → Option Script)
    (omniLockDep : CellDep) (script : Script) (tx : Transaction) :
    Transaction :=
  (tx.addCellDepsOfKnownScripts omniLockDep).prepareSighashAllWitness
    resolveLock script btcPlaceholderWitnessLockSize

/-- `SignerBtc.signOnlyTransaction(txLike)`: copies the transaction,
looks up the sighash info for the signer's recommended lock script
and returns the copy unchanged when the lookup resolves to nothing;
otherwise it signs the labelled digest through the external provider
(`signMessageRaw` stands for the provider composed with the base64
decode of its answer), adjusts the recovery id, and replaces the lock
field of the witness at the resolved position with the signature
envelope. -/
def SignerBtc.signOnlyTransaction (resolveLock : OutPoint → Option Script)
    (digestOf : Transaction → Script → String)
    (signMessageRaw : String → List Nat) (script : Script)
    (tx : Transaction) : Transaction :=
  match tx.getSignHashInfo resolveLock digestOf script with
  | none => tx
  | some info =>
      let signature :=
        adjustRecoveryId (signMessageRaw (btcSignMessageLabel ++ info.message))
      let witness := tx.witnesses.getD info.position WitnessArgs.empty
      tx.setWitnessArgsAt info.position
        { witness with lock := some (btcSignatureEnvelope signature) }

/-! ## Shared example values for witnesses -/

/-- A concrete lock script used by the concrete witnesses below. -/
def exampleScript : Script := ⟨List.replicate 32 0, HashType.typeHash, [1, 2]⟩

/-- A concrete out point used by the concrete witnesses below. -/
def exampleOutPoint : OutPoint := ⟨List.replicate 32 1, 0⟩

/-- A concrete one-input, one-witness transaction. -/
def exampleTx : Transaction :=
  ⟨0, [], [], [⟨exampleOutPoint, 0⟩], [], [], [WitnessArgs.empty]⟩

/-- A concrete request payload with correlation id 3. -/
def examplePayload : JsonRpcPayload Nat := ⟨3, "get_tip_header", [], "2.0"⟩

/-! ## Claims -/

/-- C3: for every finalisation function and every split of a byte
sequence into a prefix `a` and suffix `b`, the one-shot `ckbHash`
applied to `a`, `b` equals the digest of a fresh `Hasher` updated
with `a` then with `b`, which also equals `ckbHash` of `a ++ b`. -/
theorem ckbHash_split_homomorphism (final : List Nat → String)
    (a b : List Nat) :
    ckbHash final [a, b] = (((Hasher.new final).update a).update b).digest
      ∧ ckbHash final [a, b] = ckbHash final [a ++ b] := by
  refine ⟨rfl, ?_⟩
  simp [ckbHash, Hasher.new, Hasher.update, Hasher.digest]

/-- C4: whenever the response id differs from the request payload's
id, `ClientJsonRpc.send` fails with the id-mismatch error carrying
both ids, and in particular never returns the response's result. -/
theorem send_rejects_id_mismatch {V : Type} (payload : JsonRpcPayload V)
    (res : JsonRpcResponse V) (h : res.id ≠ payload.id) :
    ClientJsonRpc.send payload res = SendResult.idMismatch res.id payload.id
      ∧ ∀ v, ClientJsonRpc.send payload res ≠ SendResult.ok v := by
  refine ⟨by simp [ClientJsonRpc.send, h], fun v hv => ?_⟩
  simp [ClientJsonRpc.send, h] at hv

/-- Witness for C4: the spec's scenario, a response with id 7 against
a request sent with id 3. -/
theorem send_rejects_id_mismatch_witness :
    (7 : Nat) ≠ (examplePayload.id : Nat)
      ∧ (ClientJsonRpc.send examplePayload ⟨7, none, 0⟩ =
            SendResult.idMismatch 7 examplePayload.id
          ∧ ∀ v, ClientJsonRpc.send examplePayload ⟨7, none, 0⟩ ≠
              SendResult.ok v) :=
  ⟨by decide, send_rejects_id_mismatch examplePayload ⟨7, none, 0⟩ (by decide)⟩

/-- C6: when the response id matches the request, `ClientJsonRpc.send`
fails with the node-reported error object verbatim whenever one is
present, and returns the response's result field when none is. -/
theorem send_surfaces_rpc_errors {V : Type} (payload : JsonRpcPayload V)
    (res : JsonRpcResponse V) (hid : res.id = payload.id) :
    (∀ e, res.error = some e →
        ClientJsonRpc.send payload res = SendResult.rpcError e)
      ∧ (res.error = none →
        ClientJsonRpc.send payload res = SendResult.ok res.result) := by
  constructor
  · intro e he
    simp [ClientJsonRpc.send, hid, he]
  · intro he
    simp [ClientJsonRpc.send, hid, he]

/-- Witness for C6: a matching-id response carrying a node error is
surfaced as that error. -/
theorem send_surfaces_rpc_errors_witness :
    (⟨3, some ⟨-32601, "Method not found"⟩, 0⟩ : JsonRpcResponse Nat).id =
        examplePayload.id
      ∧ ((∀ e, (⟨3, some ⟨-32601, "Method not found"⟩, 0⟩ :
              JsonRpcResponse Nat).error = some e →
            ClientJsonRpc.send examplePayload
                ⟨3, some ⟨-32601, "Method not found"⟩, 0⟩ =
              SendResult.rpcError e)
          ∧ ((⟨3, some ⟨-32601, "Method not found"⟩, 0⟩ :
              JsonRpcResponse Nat).error = none →
            ClientJsonRpc.send examplePayload
                ⟨3, some ⟨-32601, "Method not found"⟩, 0⟩ =
              SendResult.ok 0)) :=
  ⟨rfl, send_surfaces_rpc_errors examplePayload
    ⟨3, some ⟨-32601, "Method not found"⟩, 0⟩ rfl⟩

/-- C10: a `findCellsPagedNoCache` call omitting order and limit sends
order `"asc"` and the hex encoding of limit 10 (`"0xa"`); explicitly
supplied order and limit values are forwarded (the limit through the
same hex encoding), and the pagination cursor passes through
untransformed. -/
theorem findCellsPagedNoCache_defaults (keyFrom : JsVal → JsVal)
    (rnd : Nat) (k : JsVal) (o : String) (n : Nat) (a : String) :
    (ClientJsonRpc.findCellsPagedNoCachePayload keyFrom rnd [k]).params =
        [keyFrom k, JsVal.vstr "asc", JsVal.vstr "0xa"]
      ∧ numToHex 10 = "0xa"
      ∧ (ClientJsonRpc.findCellsPagedNoCachePayload keyFrom rnd
            [k, JsVal.vstr o, JsVal.vnum n, JsVal.vstr a]).params =
          [keyFrom k, JsVal.vstr o, JsVal.vstr (numToHex n), JsVal.vstr a] :=
  ⟨rfl, rfl, rfl⟩

/-- C1: when the sighash info lookup for the signer's recommended
lock script resolves to nothing (no input is controlled by this
signer), `SignerBtc.signOnlyTransaction` returns its input
transaction unchanged in every field. -/
theorem signOnlyTransaction_noop (resolveLock : OutPoint → Option Script)
    (digestOf : Transaction → Script → String)
    (signMessageRaw : String → List Nat) (script : Script)
    (tx : Transaction)
    (h : tx.getSignHashInfo resolveLock digestOf script = none) :
    SignerBtc.signOnlyTransaction resolveLock digestOf signMessageRaw
      script tx = tx := by
  unfold SignerBtc.signOnlyTransaction
  rw [h]

/-- Witness for C1: a transaction whose only input's lock is not
resolved to the signer's script is returned untouched. -/
theorem signOnlyTransaction_noop_witness :
    exampleTx.getSignHashInfo (fun _ => none) (fun _ _ => "") exampleScript =
        none
      ∧ SignerBtc.signOnlyTransaction (fun _ => none) (fun _ _ => "")
          (fun _ => []) exampleScript exampleTx = exampleTx :=
  ⟨rfl, signOnlyTransaction_noop (fun _ => none) (fun _ _ => "")
    (fun _ => []) exampleScript exampleTx rfl⟩

/-- C8: the text `SignerBtc.signOnlyTransaction` hands to the external
message-signing provider is exactly the fixed ledger-specific label
followed by the sighash digest — the provider is only ever consulted
at that prefixed text (two providers agreeing there produce the same
signed transaction), and the prefixed text is never the bare
digest. -/
theorem signOnlyTransaction_domain_separation
    (resolveLock : OutPoint → Option Script)
    (digestOf : Transaction → Script → String)
    (f g : String → List Nat) (script : Script) (tx : Transaction)
    (info : SignHashInfo)
    (h : tx.getSignHashInfo resolveLock digestOf script = some info)
    (hfg : f (btcSignMessageLabel ++ info.message) =
      g (btcSignMessageLabel ++ info.message)) :
    SignerBtc.signOnlyTransaction resolveLock digestOf f script tx =
        SignerBtc.signOnlyTransaction resolveLock digestOf g script tx
      ∧ btcSignMessageLabel ++ info.message ≠ info.message := by
  constructor
  · simp only [SignerBtc.signOnlyTransaction, h, hfg]
  · intro heq
    have hlen := congrArg String.length heq
    rw [String.length_append] at hlen
    have hz : btcSignMessageLabel.length = 0 := by omega
    exact absurd hz (by decide)

/-- Witness for C8: a concrete controlled transaction, a digest
`"d"`, and two providers agreeing on the labelled digest. -/
theorem signOnlyTransaction_domain_separation_witness :
    exampleTx.getSignHashInfo (fun _ => some exampleScript)
        (fun _ _ => "d") exampleScript = some ⟨"d", 0⟩
      ∧ (fun _ : String => ([27] : List Nat))
            (btcSignMessageLabel ++ SignHashInfo.message ⟨"d", 0⟩) =
          (fun _ : String => ([27] : List Nat))
            (btcSignMessageLabel ++ SignHashInfo.message ⟨"d", 0⟩)
      ∧ (SignerBtc.signOnlyTransaction (fun _ => some exampleScript)
            (fun _ _ => "d") (fun _ : String => ([27] : List Nat))
            exampleScript exampleTx =
          SignerBtc.signOnlyTransaction (fun _ => some exampleScript)
            (fun _ _ => "d") (fun _ : String => ([27] : List Nat))
            exampleScript exampleTx
        ∧ btcSignMessageLabel ++ SignHashInfo.message ⟨"d", 0⟩ ≠
            SignHashInfo.message ⟨"d", 0⟩) :=
  ⟨rfl, rfl, signOnlyTransaction_domain_separation
    (fun _ => some exampleScript) (fun _ _ => "d")
    (fun _ : String => ([27] : List Nat)) (fun _ : String => ([27] : List Nat))
    exampleScript exampleTx ⟨"d", 0⟩ rfl rfl⟩

theorem adjustRecoveryId_length (s : List Nat) :
    (adjustRecoveryId s).length = s.length := by
  cases s <;> simp [adjustRecoveryId]

theorem addCellDepsOfKnownScripts_inputs (tx : Transaction) (d : CellDep) :
    (tx.addCellDepsOfKnownScripts d).inputs = tx.inputs := by
  unfold Transaction.addCellDepsOfKnownScripts
  split <;> rfl

theorem addCellDepsOfKnownScripts_witnesses (tx : Transaction) (d : CellDep) :
    (tx.addCellDepsOfKnownScripts d).witnesses = tx.witnesses := by
  unfold Transaction.addCellDepsOfKnownScripts
  split <;> rfl

/-- C2: the placeholder witness lock `SignerBtc.prepareTransaction`
reserves (85 bytes, via `prepareSighashAllWitness`) has exactly the
length of the envelope `signOnlyTransaction` later writes — five
4-byte header fields plus the 65-byte recovery-id-adjusted
signature. -/
theorem prepareTransaction_placeholder_matches_envelope
    (resolveLock : OutPoint → Option Script) (omniLockDep : CellDep)
    (script : Script) (tx : Transaction) (pos : Nat)
    (signature : List Nat)
    (hpos : tx.inputs.findIdx?
      (fun i => decide (resolveLock i.previousOutput = some script)) =
        some pos)
    (hlt : pos < tx.witnesses.length)
    (h65 : signature.length = 65) :
    ((SignerBtc.prepareTransaction resolveLock omniLockDep script
          tx).witnesses.getD pos WitnessArgs.empty).lock =
        some (List.replicate btcPlaceholderWitnessLockSize 0)
      ∧ (btcSignatureEnvelope (adjustRecoveryId signature)).length =
          btcPlaceholderWitnessLockSize := by
  constructor
  · unfold SignerBtc.prepareTransaction Transaction.prepareSighashAllWitness
    rw [addCellDepsOfKnownScripts_inputs, hpos]
    simp [Transaction.setWitnessArgsAt, addCellDepsOfKnownScripts_witnesses,
      List.getD_eq_getElem?_getD, List.getElem?_set_self, hlt]
  · simp [btcSignatureEnvelope, numToBytes_length, adjustRecoveryId_length,
      h65, btcPlaceholderWitnessLockSize]

/-- Witness for C2: a concrete controlled transaction and a concrete
65-byte signature. -/
theorem prepareTransaction_placeholder_matches_envelope_witness :
    exampleTx.inputs.findIdx?
        (fun i => decide ((fun _ : OutPoint => some exampleScript)
          i.previousOutput = some exampleScript)) = some 0
      ∧ 0 < exampleTx.witnesses.length
      ∧ (List.replicate 65 27).length = 65
      ∧ (((SignerBtc.prepareTransaction (fun _ => some exampleScript)
              ⟨exampleOutPoint, DepType.code⟩ exampleScript
              exampleTx).witnesses.getD 0 WitnessArgs.empty).lock =
            some (List.replicate btcPlaceholderWitnessLockSize 0)
          ∧ (btcSignatureEnvelope
              (adjustRecoveryId (List.replicate 65 27))).length =
            btcPlaceholderWitnessLockSize) :=
  ⟨rfl, by decide, by decide,
    prepareTransaction_placeholder_matches_envelope
      (fun _ => some exampleScript) ⟨exampleOutPoint, DepType.code⟩
      exampleScript exampleTx 0 (List.replicate 65 27) rfl (by decide)
      (by decide)⟩

/-- C7: on a transaction that does contain an input controlled by the
signer, `SignerBtc.signOnlyTransaction` changes only the lock field
of the witness at the resolved sighash position: version, cellDeps,
headerDeps, inputs, outputs and outputsData are those of the input
transaction, every witness at another position is unchanged, and the
witness at the resolved position keeps its inputType and outputType
fields. -/
theorem signOnlyTransaction_frame (resolveLock : OutPoint → Option Script)
    (digestOf : Transaction → Script → String)
    (signMessageRaw : String → List Nat) (script : Script)
    (tx : Transaction) (info : SignHashInfo)
    (h : tx.getSignHashInfo resolveLock digestOf script = some info)
    (hpos : info.position < tx.witnesses.length) :
    (SignerBtc.signOnlyTransaction resolveLock digestOf signMessageRaw
          script tx).version = tx.version
      ∧ (SignerBtc.signOnlyTransaction resolveLock digestOf signMessageRaw
          script tx).cellDeps = tx.cellDeps
      ∧ (SignerBtc.signOnlyTransaction resolveLock digestOf signMessageRaw
          script tx).headerDeps = tx.headerDeps
      ∧ (SignerBtc.signOnlyTransaction resolveLock digestOf signMessageRaw
          script tx).inputs = tx.inputs
      ∧ (SignerBtc.signOnlyTransaction resolveLock digestOf signMessageRaw
          script tx).outputs = tx.outputs
      ∧ (SignerBtc.signOnlyTransaction resolveLock digestOf signMessageRaw
          script tx).outputsData = tx.outputsData
      ∧ (SignerBtc.signOnlyTransaction resolveLock digestOf signMessageRaw
          script tx).witnesses.length = tx.witnesses.length
      ∧ (∀ j, j ≠ info.position →
          (SignerBtc.signOnlyTransaction resolveLock digestOf signMessageRaw
            script tx).witnesses[j]? = tx.witnesses[j]?)
      ∧ ((SignerBtc.signOnlyTransaction resolveLock digestOf signMessageRaw
            script tx).witnesses[info.position]?.map WitnessArgs.inputType =
          tx.witnesses[info.position]?.map WitnessArgs.inputType)
      ∧ ((SignerBtc.signOnlyTransaction resolveLock digestOf signMessageRaw
            script tx).witnesses[info.position]?.map WitnessArgs.outputType =
          tx.witnesses[info.position]?.map WitnessArgs.outputType) := by
  have hS : SignerBtc.signOnlyTransaction resolveLock digestOf signMessageRaw
      script tx = tx.setWitnessArgsAt info.position
        { tx.witnesses.getD info.position WitnessArgs.empty with
          lock := some (btcSignatureEnvelope (adjustRecoveryId
            (signMessageRaw (btcSignMessageLabel ++ info.message)))) } := by
    simp only [SignerBtc.signOnlyTransaction, h]
  rw [hS]
  refine ⟨rfl, rfl, rfl, rfl, rfl, rfl, ?_, ?_, ?_, ?_⟩
  · simp [Transaction.setWitnessArgsAt]
  · intro j hj
    exact List.getElem?_set_ne (Ne.symm hj)
  · simp [Transaction.setWitnessArgsAt, List.getD_eq_getElem?_getD,
      List.getElem?_set_self hpos, List.getElem?_eq_getElem hpos]
  · simp [Transaction.setWitnessArgsAt, List.getD_eq_getElem?_getD,
      List.getElem?_set_self hpos, List.getElem?_eq_getElem hpos]

/-- Witness for C7: the concrete controlled transaction, signed with a
concrete provider answer. -/
theorem signOnlyTransaction_frame_witness :
    exampleTx.getSignHashInfo (fun _ => some exampleScript)
        (fun _ _ => "d") exampleScript = some ⟨"d", 0⟩
      ∧ SignHashInfo.position ⟨"d", 0⟩ < exampleTx.witnesses.length
      ∧ ((SignerBtc.signOnlyTransaction (fun _ => some exampleScript)
            (fun _ _ => "d") (fun _ => List.replicate 65 27) exampleScript
            exampleTx).version = exampleTx.version
        ∧ (SignerBtc.signOnlyTransaction (fun _ => some exampleScript)
            (fun _ _ => "d") (fun _ => List.replicate 65 27) exampleScript
            exampleTx).cellDeps = exampleTx.cellDeps
        ∧ (SignerBtc.signOnlyTransaction (fun _ => some exampleScript)
            (fun _ _ => "d") (fun _ => List.replicate 65 27) exampleScript
            exampleTx).headerDeps = exampleTx.headerDeps
        ∧ (SignerBtc.signOnlyTransaction (fun _ => some exampleScript)
            (fun _ _ => "d") (fun _ => List.replicate 65 27) exampleScript
            exampleTx).inputs = exampleTx.inputs
        ∧ (SignerBtc.signOnlyTransaction (fun _ => some exampleScript)
            (fun _ _ => "d") (fun _ => List.replicate 65 27) exampleScript
            exampleTx).outputs = exampleTx.outputs
        ∧ (SignerBtc.signOnlyTransaction (fun _ => some exampleScript)
            (fun _ _ => "d") (fun _ => List.replicate 65 27) exampleScript
            exampleTx).outputsData = exampleTx.outputsData
        ∧ (SignerBtc.signOnlyTransaction (fun _ => some exampleScript)
            (fun _ _ => "d") (fun _ => List.replicate 65 27) exampleScript
            exampleTx).witnesses.length = exampleTx.witnesses.length
        ∧ (∀ j, j ≠ SignHashInfo.position ⟨"d", 0⟩ →
            (SignerBtc.signOnlyTransaction (fun _ => some exampleScript)
              (fun _ _ => "d") (fun _ => List.replicate 65 27) exampleScript
              exampleTx).witnesses[j]? = exampleTx.witnesses[j]?)
        ∧ ((SignerBtc.signOnlyTransaction (fun _ => some exampleScript)
              (fun _ _ => "d") (fun _ => List.replicate 65 27) exampleScript
              exampleTx).witnesses[SignHashInfo.position ⟨"d", 0⟩]?.map
                WitnessArgs.inputType =
            exampleTx.witnesses[SignHashInfo.position ⟨"d", 0⟩]?.map
              WitnessArgs.inputType)
        ∧ ((SignerBtc.signOnlyTransaction (fun _ => some exampleScript)
              (fun _ _ => "d") (fun _ => List.replicate 65 27) exampleScript
              exampleTx).witnesses[SignHashInfo.position ⟨"d", 0⟩]?.map
                WitnessArgs.outputType =
            exampleTx.witnesses[SignHashInfo.position ⟨"d", 0⟩]?.map
              WitnessArgs.outputType)) :=
  ⟨rfl, by decide,
    signOnlyTransaction_frame (fun _ => some exampleScript) (fun _ _ => "d")
      (fun _ => List.replicate 65 27) exampleScript exampleTx ⟨"d", 0⟩ rfl
      (by decide)⟩

theorem applyInTransformers_getElem? {V : Type}
    (ts : List (Option (V → V))) (vs : List V) (i : Nat) :
    (applyInTransformers ts vs)[i]? =
      (vs[i]?).map (fun v => transform v ((ts[i]?).getD none)) := by
  induction vs generalizing ts i with
  | nil => cases ts <;> simp [applyInTransformers]
  | cons v vs ih =>
    cases ts with
    | nil =>
      cases i with
      | zero => simp [applyInTransformers, transform]
      | succ i =>
        simpa [applyInTransformers, transform] using ih [] i
    | cons t ts =>
      cases i with
      | zero => simp [applyInTransformers]
      | succ i =>
        simpa [applyInTransformers] using ih ts i

theorem applyInTransformers_length {V : Type}
    (ts : List (Option (V → V))) (vs : List V) :
    (applyInTransformers ts vs).length = vs.length := by
  induction vs generalizing ts with
  | nil => cases ts <;> rfl
  | cons v vs ih =>
    cases ts with
    | nil => simpa [applyInTransformers] using ih []
    | cons t ts => simpa [applyInTransformers] using ih ts

/-- C9: every payload produced by a sender built with `buildSender` is
a single object `{id: integer ≤ 10000, jsonrpc: "2.0", method, params}`
whose params array holds the transformed caller arguments padded with
`undefined` up to the number of declared input transformers: a
supplied argument goes through its positional transformer (or passes
unchanged when none is declared for its position), and each position
beyond the supplied arguments holds its transformer applied to
`undefined`. -/
theorem buildSenderPayload_wellFormed (V : Type) (undef : V) (rnd : Nat)
    (rpcMethod : String) (ts : List (Option (V → V))) (req : List V) :
    (ClientJsonRpc.buildSenderPayload undef rnd rpcMethod ts req).jsonrpc =
        "2.0"
      ∧ (ClientJsonRpc.buildSenderPayload undef rnd rpcMethod ts
          req).method = rpcMethod
      ∧ (ClientJsonRpc.buildSenderPayload undef rnd rpcMethod ts req).id ≤
          10000
      ∧ (ClientJsonRpc.buildSenderPayload undef rnd rpcMethod ts
          req).params.length = max ts.length req.length
      ∧ (∀ (i : Nat) (v : V) (f : V → V), req[i]? = some v →
          ts[i]? = some (some f) →
          (ClientJsonRpc.buildSenderPayload undef rnd rpcMethod ts
            req).params[i]? = some (f v))
      ∧ (∀ (i : Nat) (v : V), req[i]? = some v → (ts[i]?).getD none = none →
          (ClientJsonRpc.buildSenderPayload undef rnd rpcMethod ts
            req).params[i]? = some v)
      ∧ (∀ (i : Nat) (f : V → V), req.length ≤ i → ts[i]? = some (some f) →
          (ClientJsonRpc.buildSenderPayload undef rnd rpcMethod ts
            req).params[i]? = some (f undef)) := by
  refine ⟨rfl, rfl, ?_, ?_, ?_, ?_, ?_⟩
  · have h := Nat.mod_lt rnd (show 0 < 10001 by norm_num)
    simpa [ClientJsonRpc.buildSenderPayload, ClientJsonRpc.buildPayload]
      using Nat.lt_succ_iff.mp h
  · simp only [ClientJsonRpc.buildSenderPayload, ClientJsonRpc.buildPayload,
      applyInTransformers_length, padWithUndefined, List.length_append,
      List.length_replicate]
    omega
  · intro i v f hv hf
    have hi : i < req.length := (List.getElem?_eq_some.mp hv).1
    simp [ClientJsonRpc.buildSenderPayload, ClientJsonRpc.buildPayload,
      applyInTransformers_getElem?, padWithUndefined,
      List.getElem?_append_left hi, hv, hf, transform]
  · intro i v hv hf
    have hi : i < req.length := (List.getElem?_eq_some.mp hv).1
    simp [ClientJsonRpc.buildSenderPayload, ClientJsonRpc.buildPayload,
      applyInTransformers_getElem?, padWithUndefined,
      List.getElem?_append_left hi, hv, hf, transform]
  · intro i f hge hf
    have hi : i < ts.length := (List.getElem?_eq_some.mp hf).1
    have hrep : i - req.length < ts.length - req.length := by omega
    simp [ClientJsonRpc.buildSenderPayload, ClientJsonRpc.buildPayload,
      applyInTransformers_getElem?, padWithUndefined,
      List.getElem?_append_right hge, List.getElem?_replicate_of_lt hrep,
      hf, transform]

/-- Witness for C9: a one-transformer sender applied to one argument
transforms that argument in place. -/
theorem buildSenderPayload_wellFormed_witness :
    ([JsVal.vkey 0] : List JsVal)[0]? = some (JsVal.vkey 0)
      ∧ ([some orderTransformer] :
          List (Option (JsVal → JsVal)))[0]? = some (some orderTransformer)
      ∧ (ClientJsonRpc.buildSenderPayload JsVal.undef 42 "get_cells"
          [some orderTransformer] [JsVal.vkey 0]).params[0]? =
        some (orderTransformer (JsVal.vkey 0)) :=
  ⟨rfl, rfl,
    (buildSenderPayload_wellFormed JsVal JsVal.undef 42 "get_cells"
        [some orderTransformer] [JsVal.vkey 0]).2.2.2.2.1 0 (JsVal.vkey 0)
      orderTransformer rfl rfl⟩
